import Mathlib

/-!
Verification of the botXiv daily-digest pipeline (`main.py`).

Shallow embedding conventions:
* Python strings are Lean `String`s; `str.lower()` / `str.upper()` are modelled
  over `String.data` by `pyLowerChar` / `pyUpperChar`, the Unicode case
  mappings restricted to the Basic Latin, Latin-1 Supplement and
  Greek-and-Coptic letters (including the one-to-many uppercase mapping of ß
  and the micro sign); they are the identity outside those blocks, and
  context-dependent rules such as Final_Sigma are not modelled.
* Python dictionaries (the keyword and author tables) are association lists
  `List (String × Int)`; iterating a dict iterates its keys in insertion order,
  and dict keys are unique, which appears as a `Nodup` hypothesis where needed.
* Side-effecting statements are recorded in an explicit `Effect` trace;
  fallible Python code (uncaught exceptions) returns `Except PyError _`.
  A file write is an effect that succeeds, except where the target directory
  may be missing: opening a file for writing in an absent directory raises.
-/

namespace BotXiv

/-- Python `str.lower` on one character: the Unicode simple lowercase
mapping, restricted to Basic Latin (A-Z), Latin-1 Supplement (À-Þ except ×,
plus Ÿ) and the Greek-and-Coptic capitals; identity elsewhere. -/
def pyLowerChar (c : Char) : Char :=
  let n := c.toNat
  if 65 ≤ n ∧ n ≤ 90 then Char.ofNat (n + 32)
  else if 192 ≤ n ∧ n ≤ 222 ∧ n ≠ 215 then Char.ofNat (n + 32)
  else if n = 376 then Char.ofNat 255
  else if 913 ≤ n ∧ n ≤ 929 then Char.ofNat (n + 32)
  else if 931 ≤ n ∧ n ≤ 939 then Char.ofNat (n + 32)
  else c

/-- Python `str.upper` on one character: the Unicode uppercase mapping on
the same blocks, including the one-to-many full mapping of ß to SS and the
micro sign to the Greek capital mu; identity elsewhere. -/
def pyUpperChar (c : Char) : List Char :=
  let n := c.toNat
  if 97 ≤ n ∧ n ≤ 122 then [Char.ofNat (n - 32)]
  else if n = 181 then [Char.ofNat 924]
  else if n = 223 then ['S', 'S']
  else if 224 ≤ n ∧ n ≤ 254 ∧ n ≠ 247 then [Char.ofNat (n - 32)]
  else if n = 255 then [Char.ofNat 376]
  else if 945 ≤ n ∧ n ≤ 961 then [Char.ofNat (n - 32)]
  else if n = 962 then [Char.ofNat 931]
  else if 963 ≤ n ∧ n ≤ 971 then [Char.ofNat (n - 32)]
  else [c]

/-- Lowercased character data of a string: the model of Python `s.lower()`. -/
def lowerData (s : String) : List Char := s.data.map pyLowerChar

/-- The model of Python `s.upper()` (one-to-many mappings expand). -/
def upperStr (s : String) : String := ⟨s.data.flatMap pyUpperChar⟩

/-- Substring containment on character lists: `containsSub needle hay` is the
model of Python `needle in hay` for strings. -/
def containsSub (needle : List Char) : List Char → Bool
  | [] => needle.isEmpty
  | c :: rest => needle.isPrefixOf (c :: rest) || containsSub needle rest

/-- A keyword or author table: Python dict from string to integer weight,
modelled as an association list in insertion order. -/
abbrev Table := List (String × Int)

/-- Python dict lookup `tbl[k]`, `none` when the key is absent (`KeyError`). -/
def lookup : Table → String → Option Int
  | [], _ => none
  | (k, v) :: rest, key => if k = key then some v else lookup rest key

/-- `Paper.get_kw_matches` (main.py lines 125-130): iterate the table keys
and keep those whose lowercased form occurs in the lowercased phrase. -/
def get_kw_matches (phrase : String) (keyword_list : Table) : List String :=
  (keyword_list.map Prod.fst).filter
    (fun keyword => containsSub (lowerData keyword) (lowerData phrase))

/-- The two weight-accumulation loops of `Paper.__init__` (lines 84-86): sum
the table entries of the matched keys; `none` if a dict lookup raises. -/
def sumWeights (tbl : Table) : List String → Option Int
  | [] => some 0
  | k :: rest =>
    match lookup tbl k, sumWeights tbl rest with
    | some v, some s => some (v + s)
    | _, _ => none

/-- The scored part of a `Paper` (fields computed in `Paper.__init__`). -/
structure Scored where
  kw_match : List String
  author_match : List String
  weight : Int
  is_relevant : Bool
  deriving Repr, DecidableEq

/-- The scoring performed inside `Paper.__init__` (lines 81-89), as a function
of the title, the author list, the two tables and the threshold.  Returns
`none` exactly when a weight lookup would raise `KeyError`. -/
def score (title : String) (authors : List String)
    (KEYWORDS AUTHORS : Table) (threshold : Int) : Option Scored :=
  let kw_match := get_kw_matches title KEYWORDS
  let author_match := get_kw_matches (String.intercalate " " authors) AUTHORS
  match sumWeights KEYWORDS kw_match, sumWeights AUTHORS author_match with
  | some w1, some w2 =>
    some { kw_match := kw_match, author_match := author_match,
           weight := w1 + w2, is_relevant := w1 + w2 ≥ threshold }
  | _, _ => none

/-- Scanner for `pySplit`: leftmost non-overlapping matches of `sep`.
`skip` counts separator characters still to be consumed after a match,
`cur` accumulates the current piece in reverse. -/
def pySplitGo (sep : List Char) : List Char → Nat → List Char → List (List Char)
  | [], _, cur => [cur.reverse]
  | _ :: rest, skip + 1, cur => pySplitGo sep rest skip cur
  | c :: rest, 0, cur =>
    if sep.isPrefixOf (c :: rest) then
      cur.reverse :: pySplitGo sep rest (sep.length - 1) []
    else
      pySplitGo sep rest 0 (c :: cur)

/-- Python `s.split(sep)` for a fixed non-empty separator. -/
def pySplit (sep s : String) : List String :=
  (pySplitGo sep.data s.data 0 []).map fun l => (⟨l⟩ : String)

/-- Python slice `s[n:-1]`: drop the first `n` characters and the last one. -/
def pySliceDropLast (n : Nat) (s : String) : String := ⟨(s.data.drop n).dropLast⟩

/-- Python slice `s[n:]`. -/
def pyDrop (n : Nat) (s : String) : String := ⟨s.data.drop n⟩

/-- Uncaught Python exceptions that the embedded code can raise. -/
inductive PyError
  | attributeErr -- AttributeError (method call on a missing element, i.e. None)
  | keyErr       -- KeyError (dict lookup on a missing key)
  | osErr        -- OSError (opening an unreadable file)
  deriving Repr, DecidableEq

/-- Observable side effects of the pipeline, in program order. -/
inductive Effect
  | readFile (path : String)
  | writeBackup (keywords authors : Table) -- yaml.dump to `keywords.backup`
  | writeFile (path : String) (content : String)
  | makeDirs (path : String)
  | httpGet (archive : String) (sday smonth syear : Nat) -- arxiv catchup request
  | logInfo
  | logWarning
  | logError
  | printLine (items : List String)  -- print(self.author_match)
  | slackPost (channel : String) (text : String)
  deriving Repr, DecidableEq

/-- The three HTML elements `Paper.__init__` extracts from one entry fragment;
a field is `none` when `soup.find` returns no element. The strings are the
`get_text()` results. -/
structure Soup where
  titleDiv : Option String    -- div of class "list-title mathjax"
  authorsDiv : Option String  -- div of class "list-authors"
  abstractP : Option String   -- p of class "mathjax"
  deriving Repr, DecidableEq

/-- The `Paper` object after `__init__` succeeds (main.py lines 64-89). -/
structure Paper where
  reference : String
  title : String
  authors : List String
  abstract : String
  kw_match : List String
  author_match : List String
  weight : Int
  is_relevant : Bool
  deriving Repr, DecidableEq

/-- `Paper.__init__` (lines 72-89): extract title, authors and abstract from
the fragment, score against the tables, print the author matches, and flag
relevance against the threshold. Returns the emitted effects together with
the result; a missing element raises before any effect, a failed weight
lookup raises after the print. -/
def Paper.init (reference : String) (soup : Soup)
    (KEYWORDS AUTHORS : Table) (threshold : Int) :
    List Effect × Except PyError Paper :=
  match soup.titleDiv with
  | none => ([], .error .attributeErr)
  | some titleText =>
    match soup.authorsDiv with
    | none => ([], .error .attributeErr)
    | some authorsText =>
      match soup.abstractP with
      | none => ([], .error .attributeErr)
      | some abstractText =>
        let title := pySliceDropLast 8 titleText
        let authors := pySplit ", \n" (pySliceDropLast 10 authorsText)
        let kw_match := get_kw_matches title KEYWORDS
        let author_match :=
          get_kw_matches (String.intercalate " " authors) AUTHORS
        match sumWeights KEYWORDS kw_match, sumWeights AUTHORS author_match with
        | some w1, some w2 =>
          ([.printLine author_match],
           .ok { reference := reference, title := title, authors := authors,
                 abstract := abstractText, kw_match := kw_match,
                 author_match := author_match, weight := w1 + w2,
                 is_relevant := w1 + w2 ≥ threshold })
        | _, _ => ([.printLine author_match], .error .keyErr)

/-- Python `", ".join(l)`. -/
def joinComma (l : List String) : String := String.intercalate ", " l

/-- The reduced author list of `get_md_text` (lines 93-96): when more than 10
authors, keep the first 9 and append the last one. -/
def mdPrintAuthors (authors : List String) : List String :=
  if authors.length > 10 then authors.take 9 ++ [authors.getLastD ""]
  else authors

/-- The `md_list` of `Paper.get_md_text` (lines 99-104). -/
def Paper.md_list (p : Paper) (abstract : Bool) : List String :=
  let base := [
    "## **[" ++ p.title ++ "](https://arxiv.org/abs/" ++ p.reference ++ ")**",
    "### _Authors: " ++ joinComma (mdPrintAuthors p.authors) ++ "_",
    "#### 🗝️**Keywords**: " ++ joinComma p.kw_match ++ ", "
      ++ joinComma p.author_match]
  if abstract then base ++ [p.abstract] else base

/-- `Paper.get_md_text` (lines 91-106). -/
def Paper.get_md_text (p : Paper) (abstract : Bool) : String :=
  String.intercalate "\n\n" (p.md_list abstract)

/-- The reduced author list of `get_mrkdwn_text` (lines 110-113): start from
the first 9 authors; when more than 9, append an ellipsis and the last one. -/
def mrkdwnPrintAuthors (authors : List String) : List String :=
  let pa := authors.take 9
  if authors.length > 9 then pa ++ ["...", authors.getLastD ""] else pa

/-- The `md_list` of `Paper.get_mrkdwn_text` (lines 116-121). -/
def Paper.mrkdwn_list (p : Paper) (abstract : Bool) : List String :=
  let base := [
    "<https://arxiv.org/abs/" ++ p.reference ++ "|*" ++ p.title ++ "*>",
    "Authors: " ++ joinComma (mrkdwnPrintAuthors p.authors),
    "🗝️ _Keywords: " ++ joinComma p.kw_match ++ ", "
      ++ joinComma p.author_match ++ "_"]
  if abstract then base ++ [p.abstract] else base

/-- `Paper.get_mrkdwn_text` (lines 108-123). -/
def Paper.get_mrkdwn_text (p : Paper) (abstract : Bool) : String :=
  String.intercalate "\n\n" (p.mrkdwn_list abstract)

/-- The run-configuration options `write_summary` reads from `CONFIG`. -/
structure Config where
  keywords_file : String
  archive : String
  threshold : Int
  include_abstract : Bool
  slack_channel : String
  deriving Repr, DecidableEq

/-- The parsed content of the keyword configuration file: the two named
tables `keywords` and `authors`. -/
structure AllKeywords where
  keywords : Table
  authors : Table
  deriving Repr, DecidableEq

/-- `load_keywords` (lines 29-44): try the configured file, fall back to the
backup on any failure, and always write a fresh backup after a successful
load. `primary` and `backup` are the parse results of the two files (`none`
models any open or parse failure). -/
def load_keywords (cfg : Config) (primary backup : Option AllKeywords) :
    List Effect × Except PyError AllKeywords :=
  match primary with
  | some kw =>
    ([.readFile cfg.keywords_file, .writeBackup kw.keywords kw.authors], .ok kw)
  | none =>
    match backup with
    | some kw =>
      ([.readFile cfg.keywords_file, .logWarning, .logInfo,
        .readFile "keywords.backup", .writeBackup kw.keywords kw.authors],
       .ok kw)
    | none =>
      ([.readFile cfg.keywords_file, .logWarning, .logInfo,
        .readFile "keywords.backup"], .error .osErr)

/-- `send_slack_message` (lines 47-61): read the digest file back and post it
to the configured channel; a Slack API error is caught and logged twice.
The model passes the file content directly (the file was just written). -/
def send_slack_message (cfg : Config) (filename content : String)
    (slackOk : Bool) : List Effect :=
  [.readFile filename, .slackPost cfg.slack_channel content]
    ++ if slackOk then [] else [.logError, .logError]

/-- The listing parse attempted at line 155,
`BeautifulSoup(r.text).find(h2).findNext(dl)`:
`noH2` models a page without any h2 heading (the `find` returns None and the
`findNext` call raises AttributeError, caught at line 156); `h2NoDl` models
an h2 with no following dl (`findNext` returns None without raising);
`listing` carries the zipped (identifier href, meta fragment) pairs of
the dl (line 166). -/
inductive PageParse
  | noH2
  | h2NoDl
  | listing (entries : List (String × Soup))
  deriving Repr, DecidableEq

/-- The raw fetched page together with its parse. -/
structure FetchedPage where
  text : String
  parse : PageParse
  deriving Repr, DecidableEq

/-- The loop of lines 164-171: build a `Paper` for each entry and collect the
chat-markup texts of the relevant ones; a failing constructor aborts the
whole loop. -/
def buildPapers (KEYWORDS AUTHORS : Table) (threshold : Int)
    (include_abstract : Bool) :
    List (String × Soup) → List Effect × Except PyError (List Paper × List String)
  | [] => ([], .ok ([], []))
  | (href, soup) :: rest =>
    let (eff, r) := Paper.init (pyDrop 5 href) soup KEYWORDS AUTHORS threshold
    match r with
    | .error e => (eff, .error e)
    | .ok p =>
      let (effs, rr) := buildPapers KEYWORDS AUTHORS threshold include_abstract rest
      match rr with
      | .error e => (eff ++ effs, .error e)
      | .ok (ps, mds) =>
        (eff ++ effs,
         .ok (p :: ps,
              (if p.is_relevant then [p.get_mrkdwn_text include_abstract]
               else []) ++ mds))

/-- Everything one invocation of `write_summary` observes from outside:
configuration, the target date (line 140 computes today minus a zero-day
delta) with its weekday (Monday = 0), the keyword-file and backup parse
results, the fetched page, whether `summaries/` already exists, and whether
the Slack post succeeds. -/
structure RunInput where
  cfg : Config
  weekday : Nat
  day : Nat
  month : Nat
  year : Nat
  primaryKeywords : Option AllKeywords
  backupKeywords : Option AllKeywords
  page : FetchedPage
  summariesDirExists : Bool
  slackOk : Bool
  deriving Repr, DecidableEq

/-- The date-stamped digest path `summaries/{day}_{month}_{year}.md`. -/
def mdFilePath (day month year : Nat) : String :=
  "summaries/" ++ toString day ++ "_" ++ toString month ++ "_"
    ++ toString year ++ ".md"

/-- The date-stamped error path `summaries/error_{day}_{month}_{year}.html`. -/
def errorFilePath (day month year : Nat) : String :=
  "summaries/error_" ++ toString day ++ "_" ++ toString month ++ "_"
    ++ toString year ++ ".html"

/-- The fixed first element of `md_list` (line 165). -/
def digestHeader : String := "📰 *Today\x27s Relevant Papers*"

/-- The separator joining the digest sections (line 175). -/
def digestSep : String := "\n\n-----------------------\n\n"

/-- `write_summary` (lines 133-184): reload keywords, skip weekends, fetch
the listing, parse it, score and format the papers, write the digest and
hand it to Slack. Returns the effect trace and the returned value (or the
uncaught exception). -/
def write_summary (inp : RunInput) : List Effect × Except PyError Nat :=
  let (le, kres) := load_keywords inp.cfg inp.primaryKeywords inp.backupKeywords
  match kres with
  | .error e => (le, .error e)
  | .ok kw =>
    if inp.weekday ≥ 5 then
      (le ++ [.logInfo], .ok 0)
    else
      let eff1 := le ++ [.httpGet inp.cfg.archive inp.day inp.month inp.year]
      match inp.page.parse with
      | .noH2 =>
        -- the error-file open at line 158 raises FileNotFoundError when
        -- summaries/ does not exist: makedirs runs only on the digest path
        if inp.summariesDirExists then
          (eff1 ++ [.writeFile (errorFilePath inp.day inp.month inp.year)
                      inp.page.text,
                    .logWarning], .ok 1)
        else (eff1, .error .osErr)
      | .h2NoDl => (eff1, .error .attributeErr)
      | .listing entries =>
        let (be, rr) := buildPapers kw.keywords kw.authors inp.cfg.threshold
          inp.cfg.include_abstract entries
        match rr with
        | .error e => (eff1 ++ be, .error e)
        | .ok (_, mds) =>
          let dirEff := if inp.summariesDirExists then []
            else [Effect.makeDirs "summaries"]
          let md_text := String.intercalate digestSep (digestHeader :: mds)
          let md_file := mdFilePath inp.day inp.month inp.year
          (eff1 ++ be ++ dirEff
             ++ [.writeFile md_file md_text, .logInfo, .logInfo]
             ++ send_slack_message inp.cfg md_file md_text inp.slackOk,
           .ok 0)

/-- Network effects: the arxiv request and the Slack post. -/
def Effect.isNetwork : Effect → Bool
  | .httpGet .. => true
  | .slackPost .. => true
  | _ => false

/-- Filesystem write effects: the keyword backup, any file write, and
directory creation. -/
def Effect.isFsWrite : Effect → Bool
  | .writeBackup .. => true
  | .writeFile .. => true
  | .makeDirs .. => true
  | _ => false

/-- The keyword-backup write alone. -/
def Effect.isBackupWrite : Effect → Bool
  | .writeBackup .. => true
  | _ => false

/-- The Slack delivery call alone. -/
def Effect.isSlackPost : Effect → Bool
  | .slackPost .. => true
  | _ => false

/-- A sample configuration for concrete runs. -/
def cfg0 : Config :=
  { keywords_file := "keywords.yaml", archive := "quant-ph", threshold := 3,
    include_abstract := false, slack_channel := "C0DIGEST" }

/-- A sample keyword file content: one title keyword, no authors. -/
def kwAll0 : AllKeywords := { keywords := [("qubit", 3)], authors := [] }

/-- A run whose target date is a Saturday (weekday 5). -/
def satInput : RunInput :=
  { cfg := cfg0, weekday := 5, day := 14, month := 10, year := 2023,
    primaryKeywords := some kwAll0, backupKeywords := none,
    page := { text := "", parse := .noH2 }, summariesDirExists := true,
    slackOk := true }

/-- A first-ever weekday run whose fetched page has no section heading:
the `summaries/` directory does not exist yet. -/
def friInput : RunInput :=
  { cfg := cfg0, weekday := 4, day := 13, month := 10, year := 2023,
    primaryKeywords := some kwAll0, backupKeywords := none,
    page := { text := "<html>holiday placeholder</html>", parse := .noH2 },
    summariesDirExists := false, slackOk := true }

/-- A weekday run on a holiday-placeholder page with `summaries/` present. -/
def holidayInput : RunInput :=
  { cfg := cfg0, weekday := 4, day := 13, month := 10, year := 2023,
    primaryKeywords := some kwAll0, backupKeywords := none,
    page := { text := "<html>holiday placeholder</html>", parse := .noH2 },
    summariesDirExists := true, slackOk := true }

/-- A paper with twelve authors, for the truncation scenario. -/
def paper12 : Paper :=
  { reference := "2301.00001", title := "Twelve Author Paper",
    authors := ["A1", "A2", "A3", "A4", "A5", "A6", "A7", "A8", "A9", "A10",
                "A11", "A12"],
    abstract := "An abstract.", kw_match := [], author_match := [],
    weight := 0, is_relevant := true }

/- ### Shared lemmas -/

theorem char_toNat_ofNat_valid {n : Nat} (h : n.isValidChar) :
    (Char.ofNat n).toNat = n := by
  simp only [Char.ofNat, dif_pos h, Char.ofNatAux, Char.toNat]
  rfl

/-- For an ASCII character, uppercasing then lowercasing agrees with
lowercasing; for non-ASCII characters this can fail (ß uppercases to SS). -/
theorem pyLower_pyUpper_ascii (c : Char) (h : c.toNat ≤ 127) :
    (pyUpperChar c).map pyLowerChar = [pyLowerChar c] := by
  by_cases h1 : 97 ≤ c.toNat ∧ c.toNat ≤ 122
  · have hv : (c.toNat - 32).isValidChar := Or.inl (by omega)
    have ht : (Char.ofNat (c.toNat - 32)).toNat = c.toNat - 32 :=
      char_toNat_ofNat_valid hv
    simp only [pyUpperChar]
    rw [if_pos h1, List.map_cons, List.map_nil]
    simp only [pyLowerChar]
    rw [ht,
        if_pos (⟨by omega, by omega⟩ :
          65 ≤ c.toNat - 32 ∧ c.toNat - 32 ≤ 90),
        if_neg (by omega : ¬(65 ≤ c.toNat ∧ c.toNat ≤ 90)),
        if_neg (by omega : ¬(192 ≤ c.toNat ∧ c.toNat ≤ 222 ∧ c.toNat ≠ 215)),
        if_neg (by omega : ¬c.toNat = 376),
        if_neg (by omega : ¬(913 ≤ c.toNat ∧ c.toNat ≤ 929)),
        if_neg (by omega : ¬(931 ≤ c.toNat ∧ c.toNat ≤ 939)),
        show c.toNat - 32 + 32 = c.toNat by omega, Char.ofNat_toNat]
  · simp only [pyUpperChar]
    rw [if_neg h1, if_neg (by omega : ¬c.toNat = 181),
        if_neg (by omega : ¬c.toNat = 223),
        if_neg (by omega : ¬(224 ≤ c.toNat ∧ c.toNat ≤ 254 ∧ c.toNat ≠ 247)),
        if_neg (by omega : ¬c.toNat = 255),
        if_neg (by omega : ¬(945 ≤ c.toNat ∧ c.toNat ≤ 961)),
        if_neg (by omega : ¬c.toNat = 962),
        if_neg (by omega : ¬(963 ≤ c.toNat ∧ c.toNat ≤ 971))]
    rfl

/-- Character-list version of the ASCII case round-trip. -/
theorem map_pyLower_flatMap (l : List Char) (h : ∀ c ∈ l, c.toNat ≤ 127) :
    (l.flatMap pyUpperChar).map pyLowerChar = l.map pyLowerChar := by
  induction l with
  | nil => rfl
  | cons c rest ih =>
    rw [List.flatMap_cons, List.map_append,
        pyLower_pyUpper_ascii c (h c (List.mem_cons_self c rest)),
        ih fun a ha => h a (List.mem_cons_of_mem _ ha)]
    rfl

/-- Lowercased data of the uppercased string is the lowercased data, for
strings of ASCII characters. -/
theorem lowerData_upperStr_ascii (s : String)
    (h : ∀ c ∈ s.data, c.toNat ≤ 127) :
    lowerData (upperStr s) = lowerData s :=
  map_pyLower_flatMap s.data h

/-- The executable containment check decides list-infix containment. -/
theorem containsSub_iff (needle hay : List Char) :
    containsSub needle hay = true ↔ needle <:+: hay := by
  induction hay with
  | nil => simp [containsSub, List.isEmpty_iff]
  | cons c rest ih => simp [containsSub, List.infix_cons_iff, ih]

/-- A keyword is kept by the matcher exactly when it is a table key and its
lowercased form is a substring of the lowercased phrase. -/
theorem mem_get_kw_matches (phrase keyword : String) (tbl : Table) :
    keyword ∈ get_kw_matches phrase tbl ↔
      keyword ∈ tbl.map Prod.fst ∧ lowerData keyword <:+: lowerData phrase := by
  simp [get_kw_matches, List.mem_filter, containsSub_iff]

/-- Uppercasing an ASCII phrase does not change the match list. -/
theorem get_kw_matches_upperStr (phrase : String) (tbl : Table)
    (h : ∀ c ∈ phrase.data, c.toNat ≤ 127) :
    get_kw_matches (upperStr phrase) tbl = get_kw_matches phrase tbl := by
  simp [get_kw_matches, lowerData_upperStr_ascii phrase h]

theorem pySplitGo_ne_nil (sep : List Char) (l : List Char) (skip : Nat)
    (cur : List Char) : pySplitGo sep l skip cur ≠ [] := by
  induction l generalizing skip cur with
  | nil => simp [pySplitGo]
  | cons c rest ih =>
    match skip with
    | skip + 1 => simpa [pySplitGo] using ih skip cur
    | 0 =>
      by_cases h : sep.isPrefixOf (c :: rest)
      · simp [pySplitGo, h]
      · simpa [pySplitGo, h] using ih 0 (c :: cur)

/-- Python `str.split` never returns an empty list. -/
theorem pySplit_ne_nil (sep s : String) : pySplit sep s ≠ [] := by
  simp [pySplit, pySplitGo_ne_nil]

/-- Dict lookup succeeds on every key of the table. -/
theorem lookup_isSome_of_mem (tbl : Table) (k : String)
    (h : k ∈ tbl.map Prod.fst) : (lookup tbl k).isSome := by
  induction tbl with
  | nil => simp at h
  | cons kv rest ih =>
    by_cases hk : kv.1 = k
    · simp [lookup, hk]
    · simp only [List.map_cons, List.mem_cons] at h
      rcases h with h | h
      · exact absurd h.symm hk
      · simpa [lookup, hk] using ih h

/-- The match list only contains table keys. -/
theorem get_kw_matches_subset (phrase : String) (tbl : Table) :
    get_kw_matches phrase tbl ⊆ tbl.map Prod.fst := by
  intro k hk
  exact ((mem_get_kw_matches phrase k tbl).mp hk).1

/-- The weight summation succeeds when every summand is a table key. -/
theorem sumWeights_isSome (tbl : Table) (l : List String)
    (h : ∀ k ∈ l, k ∈ tbl.map Prod.fst) : (sumWeights tbl l).isSome := by
  induction l with
  | nil => simp [sumWeights]
  | cons k rest ih =>
    obtain ⟨v, hv⟩ := Option.isSome_iff_exists.mp
      (lookup_isSome_of_mem tbl k (h k (List.mem_cons_self k rest)))
    obtain ⟨s, hs⟩ := Option.isSome_iff_exists.mp
      (ih fun k hk => h k (List.mem_cons_of_mem _ hk))
    simp [sumWeights, hv, hs]

/-- A successful weight summation is the sum of the looked-up weights. -/
theorem sumWeights_eq_sum (tbl : Table) (l : List String) (w : Int)
    (h : sumWeights tbl l = some w) :
    w = (l.map fun k => (lookup tbl k).getD 0).sum := by
  induction l generalizing w with
  | nil => simp [sumWeights] at h; simp [h.symm]
  | cons k rest ih =>
    rw [sumWeights] at h
    cases hv : lookup tbl k with
    | none => rw [hv] at h; simp at h
    | some v =>
      rw [hv] at h
      cases hs : sumWeights tbl rest with
      | none => rw [hs] at h; simp at h
      | some s =>
        rw [hs] at h
        simp only [Option.some_inj] at h
        simp [h.symm, ih s hs, hv]

/-- The scorer always succeeds, and its output has the stated shape. -/
theorem score_cases (title : String) (authors : List String) (kws aus : Table)
    (th : Int) :
    ∃ w1 w2, sumWeights kws (get_kw_matches title kws) = some w1 ∧
      sumWeights aus (get_kw_matches (String.intercalate " " authors) aus)
        = some w2 ∧
      score title authors kws aus th
        = some { kw_match := get_kw_matches title kws,
                 author_match :=
                   get_kw_matches (String.intercalate " " authors) aus,
                 weight := w1 + w2, is_relevant := decide (w1 + w2 ≥ th) } := by
  obtain ⟨w1, h1⟩ := Option.isSome_iff_exists.mp
    (sumWeights_isSome kws _ fun k hk => get_kw_matches_subset title kws hk)
  obtain ⟨w2, h2⟩ := Option.isSome_iff_exists.mp
    (sumWeights_isSome aus _ fun k hk =>
      get_kw_matches_subset (String.intercalate " " authors) aus hk)
  exact ⟨w1, w2, h1, h2, by simp [score, h1, h2]⟩

/-- The weight summation always succeeds on a match list of the same table. -/
theorem sumWeights_get_isSome (phrase : String) (tbl : Table) :
    (sumWeights tbl (get_kw_matches phrase tbl)).isSome :=
  sumWeights_isSome tbl _ fun _ hk => get_kw_matches_subset phrase tbl hk

/- ### Claim theorems -/

/-- Claim C5: `isRelevant` is true exactly when `weight >= threshold`
(inclusive bound): a paper with `weight == threshold` is relevant and one
with `weight == threshold - 1` is not. -/
theorem claim_C5 (title : String) (authors : List String) (kws aus : Table)
    (th : Int) (sp : Scored) (h : score title authors kws aus th = some sp) :
    (sp.is_relevant = true ↔ sp.weight ≥ th) ∧
    (sp.weight = th → sp.is_relevant = true) ∧
    (sp.weight = th - 1 → sp.is_relevant = false) := by
  obtain ⟨w1, w2, h1, h2, hs⟩ := score_cases title authors kws aus th
  rw [hs] at h
  obtain rfl : _ = sp := Option.some_inj.mp h
  refine ⟨by simp, ?_, ?_⟩
  · intro hw
    simp only [Scored.weight] at hw
    simp [decide_eq_true_eq, hw]
  · intro hw
    simp only [Scored.weight] at hw
    simp only [Scored.is_relevant, decide_eq_false_iff_not]
    omega

/-- Witness for C5 at Scenario A (threshold 3, weight 3). -/
theorem claim_C5_witness :
    (({ kw_match := ["qubit"], author_match := [], weight := 3,
        is_relevant := true } : Scored).is_relevant = true ↔
      ({ kw_match := ["qubit"], author_match := [], weight := 3,
         is_relevant := true } : Scored).weight ≥ 3) ∧
    (({ kw_match := ["qubit"], author_match := [], weight := 3,
        is_relevant := true } : Scored).weight = 3 →
      ({ kw_match := ["qubit"], author_match := [], weight := 3,
         is_relevant := true } : Scored).is_relevant = true) ∧
    (({ kw_match := ["qubit"], author_match := [], weight := 3,
        is_relevant := true } : Scored).weight = 3 - 1 →
      ({ kw_match := ["qubit"], author_match := [], weight := 3,
         is_relevant := true } : Scored).is_relevant = false) :=
  claim_C5 "Entangled Qubit States" ["A. One"] [("qubit", 3)] [] 3
    { kw_match := ["qubit"], author_match := [], weight := 3,
      is_relevant := true } (by decide)

/-- Claim C6: the weight is the sum of the keyword-table weights of the
title matches plus the author-table weights of the author matches, with no
normalization, decay, or position weighting. -/
theorem claim_C6 (title : String) (authors : List String) (kws aus : Table)
    (th : Int) (sp : Scored) (h : score title authors kws aus th = some sp) :
    sp.weight = (sp.kw_match.map fun k => (lookup kws k).getD 0).sum
              + (sp.author_match.map fun k => (lookup aus k).getD 0).sum := by
  obtain ⟨w1, w2, h1, h2, hs⟩ := score_cases title authors kws aus th
  rw [hs] at h
  obtain rfl : _ = sp := Option.some_inj.mp h
  show w1 + w2 = _
  rw [← sumWeights_eq_sum kws _ w1 h1, ← sumWeights_eq_sum aus _ w2 h2]

/-- Witness for C6 at Scenario A. -/
theorem claim_C6_witness :
    ({ kw_match := ["qubit"], author_match := [], weight := 3,
       is_relevant := true } : Scored).weight
      = ((["qubit"].map fun k => (lookup [("qubit", 3)] k).getD 0).sum
        + (([] : List String).map fun k =>
            (lookup ([] : Table) k).getD 0).sum) :=
  claim_C6 "Entangled Qubit States" ["A. One"] [("qubit", 3)] [] 3
    { kw_match := ["qubit"], author_match := [], weight := 3,
      is_relevant := true } (by decide)

/-- Counterexample to claim C7: Python uppercases ß to SS, so a title
containing ß scores differently from its uppercased form. -/
theorem claim_C7_counterexample :
    score (upperStr "Heisenberg ß-model") [] [("ß-model", 2)] [] 1
      ≠ score "Heisenberg ß-model" [] [("ß-model", 2)] [] 1 := by decide

/-- Claim C7 as amended: matching is case-insensitive substring containment,
and scoring a title and its uppercased form yield identical results for
titles made of ASCII characters (one-to-many Unicode case mappings such as
ß break the invariance in general). -/
theorem claim_C7_amended (phrase keyword title : String)
    (authors : List String) (tbl kws aus : Table) (th : Int)
    (h : ∀ c ∈ title.data, c.toNat ≤ 127) :
    (keyword ∈ get_kw_matches phrase tbl ↔
      keyword ∈ tbl.map Prod.fst ∧ lowerData keyword <:+: lowerData phrase) ∧
    score (upperStr title) authors kws aus th
      = score title authors kws aus th := by
  refine ⟨mem_get_kw_matches phrase keyword tbl, ?_⟩
  have hg : get_kw_matches (upperStr title) kws = get_kw_matches title kws :=
    get_kw_matches_upperStr title kws h
  simp [score, hg]

/-- Witness for the amended C7 at an all-ASCII title. -/
theorem claim_C7_amended_witness :
    ("qubit" ∈ get_kw_matches "Entangled Qubit States" [("qubit", 3)] ↔
      "qubit" ∈ ([("qubit", 3)] : Table).map Prod.fst ∧
        lowerData "qubit" <:+: lowerData "Entangled Qubit States") ∧
    score (upperStr "Entangled Qubit States") ["A. One"] [("qubit", 3)] [] 3
      = score "Entangled Qubit States" ["A. One"] [("qubit", 3)] [] 3 :=
  claim_C7_amended "Entangled Qubit States" "qubit" "Entangled Qubit States"
    ["A. One"] [("qubit", 3)] [("qubit", 3)] [] 3 (by decide)

/-- Claim C8: in the chat-markup style, a paper with more than 9 authors
renders as the first 9 names, an ellipsis marker, and the final author
name, 11 tokens in all. -/
theorem claim_C8 (p : Paper) (abstract : Bool) (h : p.authors.length > 9) :
    mrkdwnPrintAuthors p.authors
      = p.authors.take 9 ++ ["..."]
        ++ [p.authors.getLast (List.ne_nil_of_length_pos (by omega))] ∧
    (mrkdwnPrintAuthors p.authors).length = 11 ∧
    (p.mrkdwn_list abstract)[1]?
      = some ("Authors: " ++ joinComma (mrkdwnPrintAuthors p.authors)) := by
  have hne : p.authors ≠ [] := List.ne_nil_of_length_pos (by omega)
  have hlast : p.authors.getLastD "" = p.authors.getLast hne := by
    rw [List.getLastD_eq_getLast?, List.getLast?_eq_getLast _ hne]
    rfl
  have hm : mrkdwnPrintAuthors p.authors
      = p.authors.take 9 ++ ["..."] ++ [p.authors.getLast hne] := by
    simp only [mrkdwnPrintAuthors, if_pos h, hlast, List.append_assoc]
    rfl
  refine ⟨hm, ?_, ?_⟩
  · rw [hm]
    simp [List.length_take]
    omega
  · cases abstract <;> simp [Paper.mrkdwn_list]

/-- Witness for C8: the twelve-author paper of Scenario E. -/
theorem claim_C8_witness :
    mrkdwnPrintAuthors paper12.authors
      = paper12.authors.take 9 ++ ["..."]
        ++ [paper12.authors.getLast (by decide)] ∧
    (mrkdwnPrintAuthors paper12.authors).length = 11 ∧
    (paper12.mrkdwn_list false)[1]?
      = some ("Authors: " ++ joinComma (mrkdwnPrintAuthors paper12.authors)) :=
  claim_C8 paper12 false (by decide)

/-- Claim C9: in both styles the keywords line is the comma-joined title
matches, a comma, then the comma-joined author matches; an empty set
contributes an empty segment, never an omitted one. -/
theorem claim_C9 (p : Paper) (abstract : Bool) :
    (p.md_list abstract)[2]?
      = some ("#### 🗝️**Keywords**: " ++ joinComma p.kw_match ++ ", "
          ++ joinComma p.author_match) ∧
    (p.mrkdwn_list abstract)[2]?
      = some ("🗝️ _Keywords: " ++ joinComma p.kw_match ++ ", "
          ++ joinComma p.author_match ++ "_") ∧
    joinComma [] = "" := by
  refine ⟨?_, ?_, rfl⟩ <;> cases abstract <;>
    simp [Paper.md_list, Paper.mrkdwn_list]

/-- Claim C10: every element of the match list is a key of the table, each
at most once (dict keys are unique), so the weight summation never hits a
failing lookup. -/
theorem claim_C10 (phrase : String) (tbl : Table)
    (hnd : (tbl.map Prod.fst).Nodup) :
    get_kw_matches phrase tbl ⊆ tbl.map Prod.fst ∧
    (get_kw_matches phrase tbl).Nodup ∧
    (sumWeights tbl (get_kw_matches phrase tbl)).isSome = true :=
  ⟨get_kw_matches_subset phrase tbl, hnd.filter _,
    sumWeights_get_isSome phrase tbl⟩

/-- Witness for C10 at Scenario A. -/
theorem claim_C10_witness :
    get_kw_matches "Entangled Qubit States" [("qubit", 3)]
      ⊆ ([("qubit", 3)] : Table).map Prod.fst ∧
    (get_kw_matches "Entangled Qubit States" [("qubit", 3)]).Nodup ∧
    (sumWeights [("qubit", 3)]
      (get_kw_matches "Entangled Qubit States" [("qubit", 3)])).isSome = true :=
  claim_C10 "Entangled Qubit States" [("qubit", 3)] (by decide)

/-- Claim C2: the claim says scoring performs no I/O, but `Paper.__init__`
prints the author match list to stdout (line 83 of main.py): constructing a
paper emits exactly that print effect. -/
theorem claim_C2_print_io :
    (Paper.init "2301.00001"
        { titleDiv := some "\nTitle: Entangled Qubit States\n",
          authorsDiv := some "\nAuthors: A. One\n",
          abstractP := some "An abstract." }
        [("qubit", 3)] [("A. One", 2)] 3).1
      = [Effect.printLine ["A. One"]] := by decide

/-- Counterexample to claim C3: an entry whose title element holds only the
wrapper text produces a record with an empty title instead of failing. -/
theorem claim_C3_counterexample :
    ((Paper.init "2301.00002"
        { titleDiv := some "\nTitle: \n",
          authorsDiv := some "\nAuthors: A. One\n",
          abstractP := some "An abstract." } [] [] 0).2.toOption.map
      Paper.title) = some "" := by decide

/-- Claim C3 as amended: construction succeeds exactly when the three
required elements are present (title and abstract may still be empty); the
authors list is never empty; a missing element raises a generic attribute
error, never a key or file error. -/
theorem claim_C3_amended (reference : String) (soup : Soup) (kws aus : Table)
    (th : Int) :
    (Paper.init reference soup kws aus th).2.isOk
      = (soup.titleDiv.isSome && soup.authorsDiv.isSome
         && soup.abstractP.isSome) ∧
    ((Paper.init reference soup kws aus th).2.toOption.all
      fun p => !p.authors.isEmpty) = true ∧
    (Paper.init reference soup kws aus th).2 ≠ Except.error PyError.keyErr ∧
    (Paper.init reference soup kws aus th).2 ≠ Except.error PyError.osErr := by
  rcases soup with ⟨t, a, b⟩
  cases t with
  | none => simp [Paper.init, Except.isOk, Except.toBool, Except.toOption, Option.all]
  | some t =>
    cases a with
    | none => simp [Paper.init, Except.isOk, Except.toBool, Except.toOption, Option.all]
    | some a =>
      cases b with
      | none => simp [Paper.init, Except.isOk, Except.toBool, Except.toOption, Option.all]
      | some b =>
        obtain ⟨w1, hw1⟩ := Option.isSome_iff_exists.mp
          (sumWeights_get_isSome (pySliceDropLast 8 t) kws)
        obtain ⟨w2, hw2⟩ := Option.isSome_iff_exists.mp
          (sumWeights_get_isSome
            (String.intercalate " " (pySplit ", \n" (pySliceDropLast 10 a)))
            aus)
        simp [Paper.init, hw1, hw2, Except.isOk, Except.toBool, Except.toOption,
          Option.all, List.isEmpty_iff, pySplit_ne_nil]

/-- Counterexample to claim C1: on a Saturday run the keyword backup file is
still written, because `load_keywords` runs before the weekend check. -/
theorem claim_C1_counterexample :
    satInput.weekday ≥ 5 ∧
    (write_summary satInput).1.filter Effect.isFsWrite
      = [Effect.writeBackup [("qubit", 3)] []] ∧
    (write_summary satInput).2 = Except.ok 0 :=
  ⟨by decide, by decide, rfl⟩

/-- Claim C1 as amended: a weekend run ends right after the keyword reload
with a single extra log line and returns 0; no network call and no file
write other than the keyword backup occurs. -/
theorem claim_C1_amended (inp : RunInput) (h : inp.weekday ≥ 5)
    (hkw : inp.primaryKeywords.isSome ∨ inp.backupKeywords.isSome) :
    write_summary inp
      = ((load_keywords inp.cfg inp.primaryKeywords inp.backupKeywords).1
         ++ [Effect.logInfo], Except.ok 0) ∧
    (write_summary inp).1.filter Effect.isNetwork = [] ∧
    ((write_summary inp).1.all
      fun e => !e.isFsWrite || e.isBackupWrite) = true := by
  rcases inp with ⟨cfg, wd, d, m, y, pk, bk, pg, de, so⟩
  rcases pk with _ | pk
  · rcases bk with _ | bk
    · simp at hkw
    · simp_all [write_summary, load_keywords, Effect.isNetwork,
        Effect.isFsWrite, Effect.isBackupWrite]
  · simp_all [write_summary, load_keywords, Effect.isNetwork,
      Effect.isFsWrite, Effect.isBackupWrite]

/-- Witness for the amended C1 at the Saturday run. -/
theorem claim_C1_amended_witness :
    write_summary satInput
      = ((load_keywords satInput.cfg satInput.primaryKeywords
            satInput.backupKeywords).1
         ++ [Effect.logInfo], Except.ok 0) ∧
    (write_summary satInput).1.filter Effect.isNetwork = [] ∧
    ((write_summary satInput).1.all
      fun e => !e.isFsWrite || e.isBackupWrite) = true :=
  claim_C1_amended satInput (by decide) (Or.inl (by decide))

/-- Counterexample to claim C4: on the first run, when `summaries/` does
not exist yet, the no-heading path crashes with a file error instead of
persisting the page and returning — the directory is created only on the
digest path (main.py line 174), not before the error-file open (line 158). -/
theorem claim_C4_counterexample :
    friInput.page.parse = PageParse.noH2 ∧
    friInput.weekday < 5 ∧
    friInput.summariesDirExists = false ∧
    (write_summary friInput).2 = Except.error PyError.osErr ∧
    (write_summary friInput).1.filter Effect.isFsWrite
      = [Effect.writeBackup [("qubit", 3)] []] :=
  ⟨rfl, by decide, rfl, rfl, by decide⟩

/-- Claim C4 as amended: when the fetched page has no section heading and
the summaries directory already exists, the run writes the raw page to the
date-stamped error file, logs a warning, never posts to Slack, and returns
1 instead of raising. -/
theorem claim_C4_amended (inp : RunInput) (hwd : inp.weekday < 5)
    (hkw : inp.primaryKeywords.isSome ∨ inp.backupKeywords.isSome)
    (hparse : inp.page.parse = PageParse.noH2)
    (hdir : inp.summariesDirExists = true) :
    write_summary inp
      = ((load_keywords inp.cfg inp.primaryKeywords inp.backupKeywords).1
         ++ [Effect.httpGet inp.cfg.archive inp.day inp.month inp.year,
             Effect.writeFile (errorFilePath inp.day inp.month inp.year)
               inp.page.text,
             Effect.logWarning], Except.ok 1) ∧
    (write_summary inp).1.filter Effect.isSlackPost = [] ∧
    Effect.writeFile (errorFilePath inp.day inp.month inp.year) inp.page.text
      ∈ (write_summary inp).1 := by
  rcases inp with ⟨cfg, wd, d, m, y, pk, bk, ⟨tx, pr⟩, de, so⟩
  simp only at hwd hkw hparse hdir ⊢
  subst hparse
  subst hdir
  have hcond : ¬ 5 ≤ wd := by omega
  rcases pk with _ | pk
  · rcases bk with _ | bk
    · simp at hkw
    · simp only [write_summary, load_keywords]
      rw [if_neg hcond]
      simp [Effect.isSlackPost]
  · simp only [write_summary, load_keywords]
    rw [if_neg hcond]
    simp [Effect.isSlackPost]

/-- Witness for the amended C4: a Friday run on a holiday-placeholder
page, with the summaries directory present. -/
theorem claim_C4_amended_witness :
    write_summary holidayInput
      = ((load_keywords holidayInput.cfg holidayInput.primaryKeywords
            holidayInput.backupKeywords).1
         ++ [Effect.httpGet holidayInput.cfg.archive holidayInput.day
               holidayInput.month holidayInput.year,
             Effect.writeFile
               (errorFilePath holidayInput.day holidayInput.month
                 holidayInput.year)
               holidayInput.page.text,
             Effect.logWarning], Except.ok 1) ∧
    (write_summary holidayInput).1.filter Effect.isSlackPost = [] ∧
    Effect.writeFile
      (errorFilePath holidayInput.day holidayInput.month holidayInput.year)
      holidayInput.page.text ∈ (write_summary holidayInput).1 :=
  claim_C4_amended holidayInput (by decide) (Or.inl (by decide)) (by decide)
    (by decide)

end BotXiv
